import Mathlib

/-!
Verification of the Jacobin JVM core against its specification.

Go source files are shallowly embedded: Go strings become `List Char`,
Go byte slices become `List Nat` (each element < 256), `int64` becomes
`Int` with explicit two's-complement reinterpretation where the source
casts through `uint64`, and Go functions that can return a `*GErrBlk`
or panic return explicit sum types.
-/

set_option autoImplicit false
set_option maxRecDepth 8192

namespace Jacobin

/-- Go strings, modelled as their character lists. -/
abbrev GoStr := List Char

/-- Literal Go string. -/
def gs (s : String) : GoStr := s.data

/-- Byte contents of an ASCII Go string literal, as numeric byte values. -/
def gsBytes (s : String) : List Nat := s.data.map Char.toNat

/-- Go `strings.HasPrefix s pre`. -/
def goStartsWith : GoStr → GoStr → Bool
  | _, [] => true
  | [], _ :: _ => false
  | c :: cs, p :: ps => c == p && goStartsWith cs ps

/-- Go `strings.CutPrefix s pre` (result string only). -/
def goCutStart (s pre : GoStr) : GoStr :=
  if goStartsWith s pre then s.drop pre.length else s

/-- Go `strings.TrimSuffix s suf`. -/
def goTrimSuffix (s suf : GoStr) : GoStr :=
  if goStartsWith s.reverse suf.reverse then s.take (s.length - suf.length) else s

/-- Reinterpret an unsigned 64-bit value (a `Nat` below `2 ^ 64`) as a
two's-complement `int64`, as Go's `int64(binary.BigEndian.Uint64 wbytes)`
conversion does. -/
def uint64ToInt64 (w : Nat) : Int :=
  if w < 2 ^ 63 then (w : Int) else (w : Int) - 2 ^ 64

/-- Embeds `byteToInt64` (part_003:36): sign-extends one byte into an
`int64`. A negative byte (bit 0x80 set) is placed in the low byte of the
eight-byte word `0xffffffffffffff00 | bite` before the signed
reinterpretation; otherwise the byte is cast directly. -/
def byteToInt64 (bite : Nat) : Int :=
  if bite &&& 0x80 = 0x80 then
    uint64ToInt64 (0xffffffffffffff00 + bite)
  else
    (bite : Int)

/-- Embeds `fourBytesToInt64` (part_003:51): the four bytes form the low
half of an eight-byte big-endian word whose high half is `0xffffffff`
exactly when the leading byte has bit 0x80 set; the word is then
reinterpreted as a signed `int64`. -/
def fourBytesToInt64 (b1 b2 b3 b4 : Nat) : Int :=
  let low := b1 * 2 ^ 24 + b2 * 2 ^ 16 + b3 * 2 ^ 8 + b4
  if b1 &&& 0x80 = 0x80 then
    uint64ToInt64 (0xffffffff00000000 + low)
  else
    uint64ToInt64 low

theorem land128_iff : ∀ b : Nat, b < 256 → (b &&& 128 = 128 ↔ 128 ≤ b) := by
  decide

/-- C9: `byteToInt64 b` equals the value of `b` read as a signed 8-bit
two's-complement integer, and `fourBytesToInt64 b1 b2 b3 b4` equals the
signed value of the big-endian 32-bit word `b1 b2 b3 b4`, sign-extended
to `int64`. -/
theorem signExtension_ok :
    (∀ b : Nat, b < 256 →
      byteToInt64 b = if b ≤ 127 then (b : Int) else (b : Int) - 256) ∧
    (∀ b1 b2 b3 b4 : Nat, b1 < 256 → b2 < 256 → b3 < 256 → b4 < 256 →
      fourBytesToInt64 b1 b2 b3 b4 =
        if b1 * 2 ^ 24 + b2 * 2 ^ 16 + b3 * 2 ^ 8 + b4 < 2 ^ 31 then
          ((b1 * 2 ^ 24 + b2 * 2 ^ 16 + b3 * 2 ^ 8 + b4 : Nat) : Int)
        else
          ((b1 * 2 ^ 24 + b2 * 2 ^ 16 + b3 * 2 ^ 8 + b4 : Nat) : Int) - 2 ^ 32) := by
  constructor
  · intro b hb
    unfold byteToInt64 uint64ToInt64
    by_cases h : b &&& 128 = 128
    · have h128 : 128 ≤ b := (land128_iff b hb).mp h
      rw [if_pos h, if_neg (by omega), if_neg (by omega)]
      push_cast
      omega
    · have h128 : b ≤ 127 := by
        by_contra hc
        exact h ((land128_iff b hb).mpr (by omega))
      rw [if_neg h, if_pos h128]
  · intro b1 b2 b3 b4 h1 h2 h3 h4
    unfold fourBytesToInt64 uint64ToInt64
    by_cases h : b1 &&& 128 = 128
    · have h128 : 128 ≤ b1 := (land128_iff b1 h1).mp h
      rw [if_pos h, if_neg (by omega), if_neg (by omega)]
      push_cast
      omega
    · have h128 : b1 ≤ 127 := by
        by_contra hc
        exact h ((land128_iff b1 h1).mpr (by omega))
      rw [if_neg h, if_pos (by omega), if_pos (by omega)]

/-- Witness for C9 at concrete bytes: 200 sign-extends to -56 and the
word 80 00 00 01 sign-extends to -2147483647. -/
theorem signExtension_ok_witness :
    byteToInt64 200 = -56 ∧ fourBytesToInt64 128 0 0 1 = -2147483647 := by
  constructor
  · have h := signExtension_ok.1 200 (by decide)
    rw [h]
    decide
  · have h := signExtension_ok.2 128 0 0 1 (by decide) (by decide) (by decide) (by decide)
    rw [h]
    decide

/-! Object model (spec §3.4, §3.5; jacobin/object). A field value carries
one of the dynamic shapes that an `interface{}` field can take; reference
arrays carry opaque object ids. -/

/-- Dynamic shape of `Field.Fvalue` (spec §3.4 / §9 design note). -/
inductive FValue where
  | nilV
  | intV (i : Int)
  | floatV (x : Float)
  | bytesV (bs : List Nat)
  | intArrV (xs : List Int)
  | refArrV (rs : List Nat)
  | strIdxV (idx : Nat)

/-- Field of an object: a type tag (Go string) and a value. -/
structure Field where
  ftype : GoStr
  fvalue : FValue

/-- An object: Klass name (resolved from its string-pool index; `none`
models `types.InvalidStringIndex`) and the field table. -/
structure Obj where
  klassName : Option GoStr
  fieldTable : List (GoStr × Field)

/-- Go map read `FieldTable[name]`: a missing key yields the zero
`Field` value (empty type string, nil value). -/
def lookupField : List (GoStr × Field) → GoStr → Field
  | [], _ => { ftype := [], fvalue := .nilV }
  | (k, f) :: rest, key => if k = key then f else lookupField rest key

/-- The `value` field name. -/
def valueKey : GoStr := gs "value"

/-- The `types.ByteArray` tag "[B". -/
def byteArrayT : GoStr := gs "[B"

/-- The `types.Array` tag "[" that marks array Klass names. -/
def arrT : GoStr := gs "["

/-- Modelled from the spec: `object.CreateCompactStringFromGoString` is
not under `src/` (its unit test is part_005); per §3.5 and §4.4 it builds
a String object whose `value` field has ftype `[B` and holds the UTF-8
bytes of the Go string. -/
def createCompactString (bs : List Nat) : Obj :=
  { klassName := some (gs "java/lang/String")
    fieldTable := [(valueKey, { ftype := byteArrayT, fvalue := .bytesV bs })] }

/-- Go `strings.ToLower` on the byte string, restricted to ASCII bytes
(values 65..90 map to 97..122, all other byte values unchanged); this
coincides with Go on the ASCII strings considered below. -/
def goToLowerBytes (bs : List Nat) : List Nat :=
  bs.map (fun b => if 65 ≤ b ∧ b ≤ 90 then b + 32 else b)

/-- The `value` bytes of an object via the `.([]byte)` type assertion;
`none` models the Go panic when the field holds another shape. -/
def getValueBytes (o : Obj) : Option (List Nat) :=
  match (lookupField o.fieldTable valueKey).fvalue with
  | .bytesV bs => some bs
  | _ => none

/-- Embeds `stringConcat` (javaLangString.go:656). The source lowercases
BOTH operands (`strings.ToLower`, as in `compareToIgnoreCase` directly
above it) before concatenating and wrapping the result in a new compact
String object. `none` models the Go panic of the `[]byte` assertions. -/
def stringConcat (p0 p1 : Obj) : Option Obj :=
  match getValueBytes p0 with
  | none => none
  | some bs0 =>
    match getValueBytes p1 with
    | none => none
    | some bs1 =>
      some (createCompactString (goToLowerBytes bs0 ++ goToLowerBytes bs1))

/-- Exception kinds routed by the code under consideration (spec §7). -/
inductive ExcKind where
  | NullPointerException
  | ArrayIndexOutOfBoundsException
  | ArrayStoreException
  | IllegalArgumentException
  | VirtualMachineError
  | IncompatibleClassChangeError
  | ClassNotLoadedException
  | UnsupportedOperationException
  | InvalidTypeException
  deriving DecidableEq

/-- Result of a G-function that returns an `int64` or a `*GErrBlk`
(error messages elided); `goPanic` models a failed Go type assertion. -/
inductive GfRes where
  | int (i : Int)
  | gErr (k : ExcKind)
  | goPanic
  deriving DecidableEq

/-- Embeds `stringEquals` (javaLangString.go:301). The reference object's
`value` field must have ftype `[B`, otherwise a `VirtualMachineError`
error block is returned; a compare-to object whose `value` is not a byte
array yields 0; otherwise the byte slices are compared. -/
def stringEquals (p0 p1 : Obj) : GfRes :=
  let fld := lookupField p0.fieldTable valueKey
  if fld.ftype ≠ byteArrayT then .gErr .VirtualMachineError
  else
    match fld.fvalue with
    | .bytesV str1 =>
      let fld2 := lookupField p1.fieldTable valueKey
      if fld2.ftype ≠ byteArrayT then .int 0
      else
        match fld2.fvalue with
        | .bytesV str2 => if str1 = str2 then .int 1 else .int 0
        | _ => .goPanic
    | _ => .goPanic

/-- C1 (code bug): `String.concat` on the Strings "AB" and "CD" yields a
String whose `value` bytes spell "abcd" — the operands are lowercased —
rather than the concatenation "ABCD" the claim requires. -/
theorem stringConcat_lowercases_evidence :
    ((stringConcat (createCompactString (gsBytes "AB"))
        (createCompactString (gsBytes "CD"))).bind getValueBytes
      = some (gsBytes "abcd")) ∧
    gsBytes "abcd" ≠ gsBytes "AB" ++ gsBytes "CD" := by
  constructor
  · rfl
  · decide

/-- C7 (counterexample): when the reference object's `value` field holds
an `int64` rather than a byte array, `String.equals` returns a
`VirtualMachineError` error block — neither 0 nor 1 as the claim says. -/
theorem stringEquals_nonByteArray_counterexample :
    stringEquals
        { klassName := some (gs "java/lang/String")
          fieldTable := [(valueKey, { ftype := gs "I", fvalue := .intV 42 })] }
        (createCompactString (gsBytes "x"))
      = .gErr .VirtualMachineError ∧
    (∀ i : Int, GfRes.gErr .VirtualMachineError ≠ .int i) := by
  constructor
  · rfl
  · intro i h
    cases h

/-- C7 (amended): `String.equals` returns a `VirtualMachineError` error
block when the reference object's `value` field is not a byte array;
returns 0 when the reference holds a byte array but the compare-to
object does not; and compares the byte slices for equality (1 iff
byte-equal) when both hold byte arrays. -/
theorem stringEquals_spec (p0 p1 : Obj) :
    ((lookupField p0.fieldTable valueKey).ftype ≠ byteArrayT →
      stringEquals p0 p1 = .gErr .VirtualMachineError) ∧
    (∀ bs0, lookupField p0.fieldTable valueKey = ⟨byteArrayT, .bytesV bs0⟩ →
      (lookupField p1.fieldTable valueKey).ftype ≠ byteArrayT →
      stringEquals p0 p1 = .int 0) ∧
    (∀ bs0 bs1, lookupField p0.fieldTable valueKey = ⟨byteArrayT, .bytesV bs0⟩ →
      lookupField p1.fieldTable valueKey = ⟨byteArrayT, .bytesV bs1⟩ →
      stringEquals p0 p1 = if bs0 = bs1 then .int 1 else .int 0) := by
  refine ⟨fun h => ?_, fun bs0 h0 h1 => ?_, fun bs0 bs1 h0 h1 => ?_⟩
  · unfold stringEquals
    rw [if_pos h]
  · unfold stringEquals
    rw [h0]
    simp [h1]
  · unfold stringEquals
    rw [h0, h1]
    simp

/-- Witness for C7's amended theorem at concrete Strings: equal byte
contents compare equal, and a non-String compare-to yields 0. -/
theorem stringEquals_spec_witness :
    stringEquals (createCompactString (gsBytes "ab"))
        (createCompactString (gsBytes "ab")) = .int 1 ∧
    stringEquals (createCompactString (gsBytes "ab"))
        { klassName := none, fieldTable := [] } = .int 0 := by
  constructor
  · have h := (stringEquals_spec (createCompactString (gsBytes "ab"))
      (createCompactString (gsBytes "ab"))).2.2 (gsBytes "ab") (gsBytes "ab") rfl rfl
    rw [h]
    decide
  · exact (stringEquals_spec (createCompactString (gsBytes "ab"))
      { klassName := none, fieldTable := [] }).2.1 (gsBytes "ab") rfl (by decide)

/-- Modelled from the spec (§4.4): `object.ArrayLength` is not under
`src/`; it returns the element count of the array object's backing
storage, held in the `value` field. Non-array shapes yield 0. -/
def arrayLength (o : Obj) : Int :=
  match (lookupField o.fieldTable valueKey).fvalue with
  | .bytesV bs => bs.length
  | .intArrV xs => xs.length
  | .refArrV rs => rs.length
  | _ => 0

/-- Embeds `arrayCopy` (part_001:135), five-argument case. `sameObj`
models Go pointer equality `src == dest`. The pair returned is the error
result (`none` = Go `nil`) and the destination object after the call:
both copy branches of the source are empty (the non-overlapping copy is
marked CURR, the overlapping copy TODO), so the destination is returned
unchanged on every path. -/
def arrayCopy (src : Option Obj) (srcPos : Int) (dest : Option Obj)
    (destPos : Int) (length : Int) (sameObj : Bool) :
    Option ExcKind × Option Obj :=
  match src, dest with
  | none, d => (some .NullPointerException, d)
  | some _, none => (some .NullPointerException, none)
  | some s, some d =>
    if srcPos < 0 ∨ destPos < 0 ∨ length < 0 then
      (some .ArrayIndexOutOfBoundsException, some d)
    else
      -- srcType and destType are the pool-resolved Klass names
      if ¬ goStartsWith (s.klassName.getD []) arrT ∨
          ¬ goStartsWith (d.klassName.getD []) arrT ∨
          s.klassName.getD [] ≠ d.klassName.getD [] then
        (some .ArrayStoreException, some d)
      else if srcPos + length > arrayLength s ∨ destPos + length > arrayLength d then
        (some .ArrayIndexOutOfBoundsException, some d)
      else if ¬ sameObj ∨ (sameObj ∧ srcPos + length < destPos) then
        (none, some d)
      else
        (none, some d)

/-- C2: the validation cascade of `System.arraycopy`: null source or
destination gives `NullPointerException`; a negative position or length
gives `ArrayIndexOutOfBoundsException`; non-arrays or arrays of
different type give `ArrayStoreException`; and ranges that do not fit
give `ArrayIndexOutOfBoundsException`. -/
theorem arrayCopy_errors (src : Option Obj) (srcPos : Int) (dest : Option Obj)
    (destPos : Int) (length : Int) (sameObj : Bool) :
    ((src = none ∨ dest = none) →
      (arrayCopy src srcPos dest destPos length sameObj).1 =
        some .NullPointerException) ∧
    (∀ s d, src = some s → dest = some d →
      (srcPos < 0 ∨ destPos < 0 ∨ length < 0) →
      (arrayCopy src srcPos dest destPos length sameObj).1 =
        some .ArrayIndexOutOfBoundsException) ∧
    (∀ s d, src = some s → dest = some d →
      0 ≤ srcPos → 0 ≤ destPos → 0 ≤ length →
      ¬ (goStartsWith (s.klassName.getD []) arrT = true ∧
         goStartsWith (d.klassName.getD []) arrT = true ∧
         s.klassName.getD [] = d.klassName.getD []) →
      (arrayCopy src srcPos dest destPos length sameObj).1 =
        some .ArrayStoreException) ∧
    (∀ s d, src = some s → dest = some d →
      0 ≤ srcPos → 0 ≤ destPos → 0 ≤ length →
      goStartsWith (s.klassName.getD []) arrT = true →
      goStartsWith (d.klassName.getD []) arrT = true →
      s.klassName.getD [] = d.klassName.getD [] →
      (srcPos + length > arrayLength s ∨ destPos + length > arrayLength d) →
      (arrayCopy src srcPos dest destPos length sameObj).1 =
        some .ArrayIndexOutOfBoundsException) := by
  refine ⟨fun h => ?_, fun s d hs hd h => ?_, fun s d hs hd hp1 hp2 hp3 h => ?_,
    fun s d hs hd hp1 hp2 hp3 ht1 ht2 ht3 h => ?_⟩
  · rcases h with h | h <;> subst h
    · rfl
    · cases src <;> rfl
  · subst hs; subst hd
    simp only [arrayCopy]
    rw [if_pos h]
  · subst hs; subst hd
    simp only [arrayCopy]
    rw [if_neg (by omega), if_pos (by tauto)]
  · subst hs; subst hd
    simp only [arrayCopy]
    rw [if_neg (by omega), if_neg (by simp [ht1, ht2, ht3]), if_pos (by omega)]

/-- Witness for C2 at concrete inputs: a null source yields the
`NullPointerException` error block. -/
theorem arrayCopy_errors_witness :
    (arrayCopy none 0 none 0 0 false).1 = some .NullPointerException :=
  (arrayCopy_errors none 0 none 0 0 false).1 (Or.inl rfl)

/-- C3: when every validation passes, `arrayCopy` returns `nil` and the
destination object — in particular its element contents — is completely
unchanged: the source's copy branches are empty, so no elements are
copied in either the non-overlapping or the overlapping case. -/
theorem arrayCopy_noCopy (s d : Obj) (srcPos destPos length : Int) (sameObj : Bool)
    (h1 : 0 ≤ srcPos) (h2 : 0 ≤ destPos) (h3 : 0 ≤ length)
    (h4 : goStartsWith (s.klassName.getD []) arrT = true)
    (h5 : goStartsWith (d.klassName.getD []) arrT = true)
    (h6 : s.klassName.getD [] = d.klassName.getD [])
    (h7 : srcPos + length ≤ arrayLength s)
    (h8 : destPos + length ≤ arrayLength d) :
    arrayCopy (some s) srcPos (some d) destPos length sameObj = (none, some d) := by
  simp only [arrayCopy]
  rw [if_neg (by omega), if_neg (by push_neg; exact ⟨by simp [h4], by simp [h5], h6⟩),
    if_neg (by omega)]
  split_ifs <;> rfl

/-- Byte-array object with Klass name `[B`, used as a concrete array. -/
def byteArrObj (bs : List Nat) : Obj :=
  { klassName := some byteArrayT
    fieldTable := [(valueKey, { ftype := byteArrayT, fvalue := .bytesV bs })] }

/-- Witness for C3 at concrete arrays: copying 2 elements of a 3-byte
array into another 3-byte array at offset 1 returns `nil` and leaves the
destination's contents untouched. -/
theorem arrayCopy_noCopy_witness :
    arrayCopy (some (byteArrObj [1, 2, 3])) 0 (some (byteArrObj [4, 5, 6])) 1 2 false
      = (none, some (byteArrObj [4, 5, 6])) :=
  arrayCopy_noCopy (byteArrObj [1, 2, 3]) (byteArrObj [4, 5, 6]) 0 1 2 false
    (by decide) (by decide) (by decide) (by decide) (by decide) (by decide)
    (by decide) (by decide)

theorem goStartsWith_cons (c : Char) (u x : GoStr)
    (h : goStartsWith x (c :: u) = true) :
    ∃ t, x = c :: t ∧ goStartsWith t u = true := by
  match x with
  | [] => simp [goStartsWith] at h
  | d :: t =>
    simp only [goStartsWith, Bool.and_eq_true, beq_iff_eq] at h
    exact ⟨t, by rw [h.1], h.2⟩

theorem goStartsWith_cons_self (c : Char) (t : GoStr) :
    goStartsWith (c :: t) [c] = true := by
  simp [goStartsWith]

/-- Modelled from the spec (§4.4): `object.GetArrayType` is not under
`src/`; the element type is recovered by stripping the leading `[` of
the Klass name (repeated for multi-dimensional arrays). -/
def getArrayType : GoStr → GoStr
  | '[' :: rest => getArrayType rest
  | s => s

/-- Embeds `checkcastArray` (part_003:505). `isSub` stands for
`isClassAaSublclassOfB` on the raw pool-resolved class names (it
consults the method area, which is abstracted as this parameter). A
Klass name of `types.InvalidStringIndex` throws `InvalidTypeException`,
which in test mode makes the function return false. -/
def checkcastArray (isSub : GoStr → GoStr → Bool) (obj : Obj)
    (className : GoStr) : Bool :=
  match obj.klassName with
  | none => false
  | some sptr =>
    if sptr = className ∨ goStartsWith className sptr then true
    else if ¬ goStartsWith className arrT then className == gs "java/lang/Object"
    else
      -- both are arrays: same primitive element type succeeds …
      if (¬ goStartsWith (getArrayType sptr) (gs "L") ∧
          ¬ goStartsWith (getArrayType className) (gs "L")) ∧
          getArrayType sptr = getArrayType className then true
      else
        -- … otherwise strip `L…;` and apply the reference-array rules
        if goTrimSuffix (goCutStart (getArrayType sptr) (gs "L")) (gs ";") =
            getArrayType className ∨
           goTrimSuffix (goCutStart (getArrayType className) (gs "L")) (gs ";") =
            gs "java/lang/Object" then true
        else
          isSub (goTrimSuffix (goCutStart (getArrayType sptr) (gs "L")) (gs ";"))
            (goTrimSuffix (goCutStart (getArrayType className) (gs "L")) (gs ";"))

/-- C6: for an array object (Klass name beginning with `[`) checked
against a non-array class name T, `checkcastArray` succeeds exactly when
T is `java/lang/Object`, whatever the class hierarchy says. -/
theorem checkcastArray_classT (isSub : GoStr → GoStr → Bool) (obj : Obj)
    (className s : GoStr)
    (hk : obj.klassName = some s)
    (hs : goStartsWith s arrT = true)
    (hc : goStartsWith className arrT = false) :
    checkcastArray isSub obj className = true ↔
      className = gs "java/lang/Object" := by
  obtain ⟨t, hts, -⟩ := goStartsWith_cons '[' [] s hs
  have hfirst : ¬ (s = className ∨ goStartsWith className s = true) := by
    rintro (h | h)
    · have hx : goStartsWith className arrT = true := by
        rw [← h, hts]
        exact goStartsWith_cons_self '[' t
      rw [hx] at hc
      simp at hc
    · rw [hts] at h
      obtain ⟨t2, ht2, -⟩ := goStartsWith_cons '[' t className h
      have hx : goStartsWith className arrT = true := by
        rw [ht2]
        exact goStartsWith_cons_self '[' t2
      rw [hx] at hc
      simp at hc
  simp only [checkcastArray, hk]
  rw [if_neg hfirst, if_pos (by rw [hc]; simp)]
  simp

/-- Witness for C6 at a concrete array: an `[I` array object may be cast
to `java/lang/Object` even under an empty class hierarchy. -/
theorem checkcastArray_classT_witness :
    checkcastArray (fun _ _ => false)
        { klassName := some (gs "[I"), fieldTable := [] }
        (gs "java/lang/Object") = true :=
  (checkcastArray_classT (fun _ _ => false)
      { klassName := some (gs "[I"), fieldTable := [] }
      (gs "java/lang/Object") (gs "[I") rfl (by decide) (by decide)).mpr rfl

/-! Interface method resolution (part_003:561). -/

/-- The `*classloader.Method` data consulted during verification. -/
structure MethodM where
  accessFlags : Nat

/-- The `classloader.MTentry` result of `FetchMethodAndCP` (only the
parts this function reads: the table type and whether `Meth` is nil). -/
structure MTentryM where
  mType : Char
  methIsNil : Bool
  deriving DecidableEq

/-- Outcome of `locateInterfaceMeth`: the selected entry, a thrown
exception (test mode returns the error), or a Go nil-pointer panic. -/
inductive LocateRes where
  | ok (e : MTentryM)
  | err (k : ExcKind)
  | goPanic
  deriving DecidableEq

/-- The `Klass.Data` fields consulted: name, direct interface list
(pool indices resolved to names) and method table. `superclassIndex` is
present in the source's `ClData` but never consulted here. -/
structure ClDataM where
  name : GoStr
  superclassIndex : Nat
  interfaces : List GoStr
  methodTable : List (GoStr × MethodM)

/-- Go map read on the method table. -/
def lookupMeth : List (GoStr × MethodM) → GoStr → Option MethodM
  | [], _ => none
  | (k, m) :: rest, key => if k = key then some m else lookupMeth rest key

/-- The `verifyInterfaceMethod` label of the source: a `J`-typed entry
whose method has the native bit 0x0100 set throws
`UnsupportedOperationException`; a `J`-typed entry reached with a nil
`meth` pointer (the interface-lookup path) dereferences nil. -/
def verifyInterfaceMethod (mtEntry : MTentryM) (meth : Option MethodM) : LocateRes :=
  if mtEntry.mType = 'J' then
    match meth with
    | none => .goPanic
    | some m =>
      if m.accessFlags &&& 0x100 > 0 then .err .UnsupportedOperationException
      else .ok mtEntry
  else .ok mtEntry

/-- Embeds `locateInterfaceMeth` (part_003:561). `fetchSelf` and
`fetchIface` stand for the `classloader.FetchMethodAndCP` results on the
receiver's class and on the interface; `loadErr` models a failing
`LoadClassFromNameOnly` of the interface. Only the receiver class's own
`Interfaces` list is scanned: an empty list throws
`IncompatibleClassChangeError` at once, and a scan that never matches
`interfaceName` leaves `foundIntfaceName` empty and throws the same —
superclasses are never consulted (the source marks the spot with a
`CURR: check for superclasses, after checking Object` comment). -/
def locateInterfaceMeth (clData : ClDataM) (interfaceName nameAndType : GoStr)
    (fetchSelf fetchIface : MTentryM) (loadErr : Bool) : LocateRes :=
  if clData.interfaces = [] then .err .IncompatibleClassChangeError
  else if interfaceName ∈ clData.interfaces then
    match lookupMeth clData.methodTable nameAndType with
    | some m => verifyInterfaceMethod fetchSelf (some m)
    | none =>
      if loadErr then .err .ClassNotLoadedException
      else if fetchIface.methIsNil then .err .ClassNotLoadedException
      else verifyInterfaceMethod fetchIface none
  else .err .IncompatibleClassChangeError

/-- C5 (code-bug evidence): a receiver class whose own interface list is
empty is rejected with `IncompatibleClassChangeError` no matter what its
superclass implements — the resolution never looks at superclasses, so a
class inheriting its interface from a superclass is wrongly rejected. -/
theorem locateInterfaceMeth_ignores_superclasses :
    locateInterfaceMeth
        { name := gs "MyClass", superclassIndex := 3, interfaces := [],
          methodTable := [(gs "run()V", { accessFlags := 1 })] }
        (gs "MyInterface") (gs "run()V")
        { mType := 'G', methIsNil := false }
        { mType := 'G', methIsNil := false } false
      = .err .IncompatibleClassChangeError := rfl

/-! Constant-pool access (spec §3.2, §4.1; tested by part_000). -/

/-- Constant-pool entry tags (spec §3.2). `Dummy` is the tag of the
reserved entry 0. -/
inductive CpTag where
  | Dummy
  | UTF8
  | IntConst
  | FloatConst
  | LongConst
  | DoubleConst
  | ClassRef
  | StringConst
  | FieldRef
  | MethodRef
  | InterfaceRef
  | NameAndType
  | MethodHandle
  | MethodType
  | Dynamic
  | InvokeDynamic
  deriving DecidableEq

/-- A `CpEntry`: tag plus slot into the per-tag storage vector. -/
structure CpEntry where
  tag : CpTag
  slot : Nat

/-- A constant pool (spec §3.2): the dense `CpIndex` plus the per-tag
payload vectors that `FetchCPentry` reads. The compound-entry vectors
(`MethodRefs`, `NameAndTypes`, …) are not read by the fetch and are
elided. Floats are kept as `Float` payloads. -/
structure CPool where
  cpIndex : List CpEntry
  classRefs : List Nat
  doubles : List Float
  floats : List Float
  intConsts : List Int
  longConsts : List Int
  methodTypes : List Nat
  utf8Refs : List GoStr

/-- Return-type discriminant of a CP fetch (spec §4.1). -/
inductive RetKind where
  | ERROR
  | INT64
  | FLOAT64
  | STRING_ADDR
  deriving DecidableEq

/-- The fetch result: discriminant plus payloads. -/
structure CpRet where
  retType : RetKind
  intVal : Int := 0
  floatVal : Float := 0
  stringVal : Option GoStr := none

/-- Modelled from the spec (§4.1): `FetchCPentry` itself is not under
`src/` — only its unit test (`TestFetchCPentry`, part_000) is. A nil
pool, index 0, or an out-of-range index give an `ERROR` result and no
exception. Otherwise the result is driven by the entry's tag:
`IntConst` / `LongConst` / `MethodType` give `INT64`; `FloatConst` /
`DoubleConst` give `FLOAT64`; `UTF8` gives the Utf8 string,
`StringConst` dereferences its slot as the CP index of a `UTF8` entry,
and `ClassRef` reads the interned name from the string pool `sp` — all
three give `STRING_ADDR`. Payload slots are read totally (`getD`): the
§3.2 invariant guarantees every referenced slot and CP index resolves
to the expected tag. Any other tag gives `ERROR`. -/
def FetchCPentry (sp : List GoStr) (cpp : Option CPool) (index : Nat) : CpRet :=
  match cpp with
  | none => { retType := .ERROR }
  | some cp =>
    if index < 1 ∨ cp.cpIndex.length ≤ index then { retType := .ERROR }
    else
      match (cp.cpIndex.getD index ⟨.Dummy, 0⟩).tag, (cp.cpIndex.getD index ⟨.Dummy, 0⟩).slot with
      | .IntConst, slot => { retType := .INT64, intVal := cp.intConsts.getD slot 0 }
      | .LongConst, slot => { retType := .INT64, intVal := cp.longConsts.getD slot 0 }
      | .MethodType, slot => { retType := .INT64, intVal := (cp.methodTypes.getD slot 0 : Nat) }
      | .FloatConst, slot => { retType := .FLOAT64, floatVal := cp.floats.getD slot 0 }
      | .DoubleConst, slot => { retType := .FLOAT64, floatVal := cp.doubles.getD slot 0 }
      | .UTF8, slot => { retType := .STRING_ADDR, stringVal := some (cp.utf8Refs.getD slot []) }
      | .StringConst, slot =>
        { retType := .STRING_ADDR
          stringVal := some (cp.utf8Refs.getD (cp.cpIndex.getD slot ⟨.Dummy, 0⟩).slot []) }
      | .ClassRef, slot =>
        { retType := .STRING_ADDR
          stringVal := some (sp.getD (cp.classRefs.getD slot 0) []) }
      | _, _ => { retType := .ERROR }

/-- The return kind the claim assigns to each CP tag (`kindFor`). -/
def tagKind : CpTag → RetKind
  | .IntConst => .INT64
  | .LongConst => .INT64
  | .MethodType => .INT64
  | .FloatConst => .FLOAT64
  | .DoubleConst => .FLOAT64
  | .UTF8 => .STRING_ADDR
  | .StringConst => .STRING_ADDR
  | .ClassRef => .STRING_ADDR
  | _ => .ERROR

/-- C4: for every pool and index, the fetch's return kind is `kindFor`
of the entry's tag when the index is in range and nonzero, and `ERROR`
for index 0, out-of-range indices, and all remaining tags. -/
theorem fetchCPentry_kind (sp : List GoStr) (cp : CPool) (index : Nat) :
    (FetchCPentry sp (some cp) index).retType =
      if 1 ≤ index ∧ index < cp.cpIndex.length then
        tagKind (cp.cpIndex.getD index ⟨.Dummy, 0⟩).tag
      else
        .ERROR := by
  simp only [FetchCPentry]
  by_cases h : index < 1 ∨ cp.cpIndex.length ≤ index
  · rw [if_pos h, if_neg (by omega)]
  · rw [if_neg h, if_pos (by omega)]
    rcases htag : (cp.cpIndex.getD index ⟨.Dummy, 0⟩).tag <;> simp [htag, tagKind]

/-! The ISHR / IUSHR bytecode steps (spec §4.6, §8 scenario 5; tested
by TestIshrNeg and TestIushr in part_004). The interpreter run loop is
not under `src/`, so the two stack transitions are modelled from the
spec. The operand stack holds `int64` slots, list head = top of stack. -/

/-- Go's `>>` on `int64`: an arithmetic shift, i.e. floor division by a
power of two. -/
def goShrInt (v : Int) (s : Nat) : Int := Int.fdiv v (2 ^ s)

/-- Modelled from the spec (§4.6): ISHR pops the shift amount and the
value and pushes the arithmetic right shift (shift amount masked to
0x1F). `none` models a stack underflow. -/
def ishrStep : List Int → Option (List Int)
  | shiftBy :: val :: rest => some (goShrInt val (shiftBy.toNat &&& 0x1f) :: rest)
  | _ => none

/-- Modelled from the spec (§4.6 and §8 scenario 5) and the unit test
`TestIushr` (part_004:643): IUSHR pops the shift amount and the value;
a negative value is replaced by its negation before the logical shift,
which is what makes IUSHR(-200, 3) come out as 25 — the concrete result
asserted by both the spec's scenario 5 and the test (the scenario's
parenthetical `((uint64)-200) >> 3` formula would instead give
2305843009213693927). -/
def iushrStep : List Int → Option (List Int)
  | shiftBy :: val :: rest =>
    some (goShrInt (if val < 0 then -val else val) (shiftBy.toNat &&& 0x1f) :: rest)
  | _ => none

/-- C8: with -200 pushed and then 3 pushed, ISHR leaves -25 on the
operand stack and IUSHR leaves 25. -/
theorem ishr_iushr_concrete :
    ishrStep [3, -200] = some [-25] ∧ iushrStep [3, -200] = some [25] := by
  constructor <;> decide

/-! System properties (part_001:215, `getProperty`). -/

/-- The host- and globals-supplied strings that `getProperty` reads:
globals fields (`FileEncoding`, `JavaHome`, `Version`, the
already-stringified `MaxJavaVersion`), the Go runtime constants
(`GOOS`, `GOARCH`), `os.PathSeparator`, and the `os` / `os/user`
results (working directory, home directory, user name). -/
structure SysEnv where
  fileEncoding : GoStr
  javaHome : GoStr
  version : GoStr
  maxJavaVersionStr : GoStr
  goos : GoStr
  goarch : GoStr
  pathSeparator : Char
  cwd : GoStr
  userHome : GoStr
  userName : GoStr

/-- Embeds `getProperty` (part_001:215). The Go switch on the property
name; `some v` models `object.StringObjectFromGoString(v)` and `none`
models the `object.Null` returned by the default case. -/
def getProperty (env : SysEnv) (propStr : GoStr) : Option GoStr :=
  if propStr = gs "file.encoding" then some env.fileEncoding
  else if propStr = gs "file.separator" then some [env.pathSeparator]
  else if propStr = gs "java.class.path" then some (gs ".")
  else if propStr = gs "java.compiler" then some (gs "no JIT")
  else if propStr = gs "java.home" then some env.javaHome
  else if propStr = gs "java.library.path" then some env.javaHome
  else if propStr = gs "java.vendor" then some (gs "Jacobin")
  else if propStr = gs "java.vendor.url" then some (gs "https://jacobin.org")
  else if propStr = gs "java.vendor.version" then some env.version
  else if propStr = gs "java.version" then some env.maxJavaVersionStr
  else if propStr = gs "java.vm.name" then
    some (gs "Jacobin VM v. " ++ env.version ++ gs " (Java " ++
      env.maxJavaVersionStr ++ gs ") 64-bit VM")
  else if propStr = gs "java.vm.specification.name" then
    some (gs "Java Virtual Machine Specification")
  else if propStr = gs "java.vm.specification.vendor" then
    some (gs "Oracle and Jacobin")
  else if propStr = gs "java.vm.specification.version" then
    some env.maxJavaVersionStr
  else if propStr = gs "java.vm.vendor" then some (gs "Jacobin")
  else if propStr = gs "java.vm.version" then some env.maxJavaVersionStr
  else if propStr = gs "line.separator" then
    -- the Go source's literals are "\\r\\n" and "\\n" (escaped backslashes)
    if env.goos = gs "windows" then some (gs "\\r\\n") else some (gs "\\n")
  else if propStr = gs "native.encoding" then some (gs "UTF8")
  else if propStr = gs "os.arch" then some env.goarch
  else if propStr = gs "os.name" then some env.goos
  else if propStr = gs "os.version" then some (gs "not yet available")
  else if propStr = gs "path.separator" then some [env.pathSeparator]
  else if propStr = gs "user.dir" then some env.cwd
  else if propStr = gs "user.home" then some env.userHome
  else if propStr = gs "user.name" then some env.userName
  else none

/-- The 25 property names the claim lists. -/
def sysPropertyNames : List GoStr :=
  [gs "file.encoding", gs "file.separator", gs "java.class.path",
   gs "java.compiler", gs "java.home", gs "java.library.path",
   gs "java.vendor", gs "java.vendor.url", gs "java.vendor.version",
   gs "java.version", gs "java.vm.name", gs "java.vm.specification.name",
   gs "java.vm.specification.vendor", gs "java.vm.specification.version",
   gs "java.vm.vendor", gs "java.vm.version", gs "line.separator",
   gs "native.encoding", gs "os.arch", gs "os.name", gs "os.version",
   gs "path.separator", gs "user.dir", gs "user.home", gs "user.name"]

/-- C10: whatever the host environment, `getProperty` yields a String
object exactly for the 25 listed names and the null reference for every
other name. -/
theorem getProperty_names (env : SysEnv) (name : GoStr) :
    (getProperty env name).isSome = true ↔ name ∈ sysPropertyNames := by
  have hif : ∀ (c : Prop) (inst : Decidable c) (x y : GoStr),
      (if c then some x else some y).isSome = true := by
    intro c inst x y
    split <;> rfl
  constructor
  · intro h
    by_contra hnot
    unfold sysPropertyNames at hnot
    simp only [List.mem_cons, List.not_mem_nil, or_false, not_or] at hnot
    obtain ⟨n1, n2, n3, n4, n5, n6, n7, n8, n9, n10, n11, n12, n13, n14, n15,
      n16, n17, n18, n19, n20, n21, n22, n23, n24, n25⟩ := hnot
    unfold getProperty at h
    rw [if_neg n1, if_neg n2, if_neg n3, if_neg n4, if_neg n5, if_neg n6,
      if_neg n7, if_neg n8, if_neg n9, if_neg n10, if_neg n11, if_neg n12,
      if_neg n13, if_neg n14, if_neg n15, if_neg n16, if_neg n17, if_neg n18,
      if_neg n19, if_neg n20, if_neg n21, if_neg n22, if_neg n23, if_neg n24,
      if_neg n25] at h
    exact absurd h (by decide)
  · intro hmem
    unfold sysPropertyNames at hmem
    fin_cases hmem <;> first | rfl | exact hif _ _ _ _

end Jacobin
